import Mathlib

/-!
Shallow embedding, in Lean, of the lupabase record store: record-key utilities
(src/record/utils.rs), the path-parameterized CRUD operation engine
(src/database/operation_path.rs together with src/utils.rs), the snapshot
transaction protocol (src/transaction/mod.rs, src/engine/jsondb.rs,
src/engine/cbordb.rs, src/engine/memorydb.rs), storage backup naming
(src/database/io.rs), and the composite-operation facility
(src/record/operatable.rs), together with theorems checking the specified
properties against these definitions.

A partition's stored collection is modelled as an `Option (List R)`:
`none` is the absent-file state (`DBNotFound` on read) and `some l` is a
stored, decodable collection.  Record types are kept abstract: a record type
`R` comes with a key extraction function `uv : R → K` standing for
`DatabaseRecord::unique_value`, with decidable equality on `K` standing for
the `Unique: Hash + Eq` bound.
-/

namespace Lupabase

/-- Error type mirroring src/error.rs.  `opFailure` corresponds to
`DBOperationFailure`; it carries the offending path and, structurally, the
conflicting unique keys that the Rust code formats into its `reason` string.
`panicked` models a Rust panic (`expect` / `todo!`), which is not an `Error`
variant in the source but an abnormal termination of the call. -/
inductive Err (K : Type) where
  | notFound (path : String)
  | corrupt (path : String) (reason : String)
  | opFailure (path : String) (dups : List K)
  | ioWrite (path : String) (reason : String)
  | ioCopy (src : String) (dst : String) (reason : String)
  | panicked (msg : String)
  | commitFailure (path : String) (reason : String)
  | rollbackFailure (path : String) (reason : String)
  deriving DecidableEq

/-- as_uniques (src/record/utils.rs): the unique key of each record, in order. -/
def as_uniques {R K : Type} (uv : R → K) (l : List R) : List K := l.map uv

/-- Helper modelling itertools `duplicates()`: traverse the list, emit an
element the second time it is seen, once per distinct element.  `seen` holds
the keys already traversed, `rep` the keys already emitted. -/
def duplicatesAux {K : Type} [DecidableEq K] : List K → List K → List K → List K
  | [], _, _ => []
  | x :: xs, seen, rep =>
    if x ∈ seen then
      if x ∈ rep then duplicatesAux xs seen rep
      else x :: duplicatesAux xs seen (x :: rep)
    else duplicatesAux xs (x :: seen) rep

/-- Model of itertools `duplicates()` as used by find_intersecting_uniques_from. -/
def duplicates {K : Type} [DecidableEq K] (l : List K) : List K := duplicatesAux l [] []

theorem mem_duplicatesAux {K : Type} [DecidableEq K] (x : K) :
    ∀ (l seen rep : List K),
      x ∈ duplicatesAux l seen rep ↔ x ∉ rep ∧ ((x ∈ seen ∧ x ∈ l) ∨ 2 ≤ l.count x) := by
  intro l
  induction l with
  | nil => intro seen rep; simp [duplicatesAux]
  | cons y ys ih =>
    intro seen rep
    by_cases hys : y ∈ seen
    · by_cases hyr : y ∈ rep
      · rw [duplicatesAux, if_pos hys, if_pos hyr, ih]
        by_cases hxy : x = y
        · subst hxy
          simp [hyr]
        · simp [List.mem_cons, hxy, List.count_cons, hxy]
      · rw [duplicatesAux, if_pos hys, if_neg hyr]
        by_cases hxy : x = y
        · subst hxy
          constructor
          · intro _
            exact ⟨hyr, Or.inl ⟨hys, List.mem_cons_self _ _⟩⟩
          · intro _
            exact List.mem_cons_self _ _
        · rw [List.mem_cons]
          simp only [hxy, false_or]
          rw [ih]
          simp [List.mem_cons, hxy, List.count_cons, hxy]
    · rw [duplicatesAux, if_neg hys, ih]
      by_cases hxy : x = y
      · subst hxy
        have hcount : x ∈ ys ↔ 0 < List.count x ys := List.count_pos_iff.symm
        constructor
        · rintro ⟨hr, h⟩
          refine ⟨hr, Or.inr ?_⟩
          rw [List.count_cons_self]
          rcases h with ⟨_, hmem⟩ | hc
          · have := hcount.mp hmem; omega
          · omega
        · rintro ⟨hr, h⟩
          refine ⟨hr, ?_⟩
          rcases h with ⟨hmem, _⟩ | hc
          · exact absurd hmem hys
          · rw [List.count_cons_self] at hc
            exact Or.inl ⟨List.mem_cons_self _ _, hcount.mpr (by omega)⟩
      · simp [List.mem_cons, hxy, List.count_cons, hxy]

theorem mem_duplicates {K : Type} [DecidableEq K] (x : K) (l : List K) :
    x ∈ duplicates l ↔ 2 ≤ l.count x := by
  rw [duplicates, mem_duplicatesAux]; simp

theorem duplicates_eq_nil_iff {K : Type} [DecidableEq K] (l : List K) :
    duplicates l = [] ↔ l.Nodup := by
  rw [List.eq_nil_iff_forall_not_mem, List.nodup_iff_count_le_one]
  constructor
  · intro h a
    have := h a
    rw [mem_duplicates] at this
    omega
  · intro h a
    rw [mem_duplicates]
    have := h a
    omega

/-- find_intersecting_uniques_from (src/record/utils.rs): chain the key lists of
both collections and collect the duplicated keys of the concatenation. -/
def find_intersecting_uniques_from {R K : Type} [DecidableEq K] (uv : R → K)
    (cur other : List R) : List K :=
  duplicates (as_uniques uv cur ++ as_uniques uv other)

/-- find_non_intersecting_uniques_from (src/record/utils.rs): the keys of
`other` that are not among the duplicated keys of the concatenation. -/
def find_non_intersecting_uniques_from {R K : Type} [DecidableEq K] (uv : R → K)
    (cur other : List R) : List K :=
  (as_uniques uv other).filter
    (fun ou => decide (ou ∉ find_intersecting_uniques_from uv cur other))

/-- find_by_unique (src/record/utils.rs): first record whose key equals `u`. -/
def find_by_unique {R K : Type} [DecidableEq K] (uv : R → K) (l : List R) (u : K) : Option R :=
  l.find? (fun r => decide (uv r = u))

/-- Models `find_by_unique_mut` followed by the `*record = ur` assignment in
update_all: replace the first record whose key equals the key of `ur` by `ur`;
`none` when no record has that key. -/
def replace_first {R K : Type} [DecidableEq K] (uv : R → K) (ur : R) : List R → Option (List R)
  | [] => none
  | r :: rs =>
    if uv r = uv ur then some (ur :: rs)
    else (replace_first uv ur rs).map (fun rs' => r :: rs')

/-- check_is_all_new_records (src/utils.rs): fail with `DBOperationFailure`
when the duplicated-keys list of current ++ new is non-empty. -/
def check_is_all_new_records {R K : Type} [DecidableEq K] (uv : R → K)
    (current_records new_records : List R) (path : String) : Except (Err K) Unit :=
  let dups := find_intersecting_uniques_from uv current_records new_records
  if dups.isEmpty then .ok () else .error (.opFailure path dups)

/-- check_is_all_existing_records (src/utils.rs): fail with `DBOperationFailure`
when some key of the update set is non-matching. -/
def check_is_all_existing_records {R K : Type} [DecidableEq K] (uv : R → K)
    (current_records new_records : List R) (path : String) : Except (Err K) Unit :=
  let non_matching := find_non_intersecting_uniques_from uv current_records new_records
  if non_matching.isEmpty then .ok () else .error (.opFailure path non_matching)

/-- get_all_with_path (src/database/operation_path.rs): `try_read_storage` of
the collection stored at the path; an absent partition is `DBNotFound`. -/
def get_all_with_path {R K : Type} (path : String) (s : Option (List R)) :
    Except (Err K) (List R) :=
  match s with
  | some records => .ok records
  | none => .error (.notFound path)

/-- insert_all_with_path (src/database/operation_path.rs): read the current
collection, run check_is_all_new_records, then write current chained with new.
The returned list is the collection passed to `try_write_storage`; an error
means nothing is written. -/
def insert_all_with_path {R K : Type} [DecidableEq K] (uv : R → K)
    (new_records : List R) (path : String) (s : Option (List R)) :
    Except (Err K) (List R) :=
  match get_all_with_path path s with
  | .error e => .error e
  | .ok records =>
    match check_is_all_new_records uv records new_records path with
    | .error e => .error e
    | .ok () => .ok (records ++ new_records)

/-- insert_with_path (src/database/operation_path.rs): wraps the single record
into a one-element batch. -/
def insert_with_path {R K : Type} [DecidableEq K] (uv : R → K)
    (updated_record : R) (path : String) (s : Option (List R)) : Except (Err K) (List R) :=
  insert_all_with_path uv [updated_record] path s

/-- The update loop of update_all_with_path: for each updated record, replace
in place the record found by `find_by_unique_mut`; the `expect` on a missing
record is a Rust panic, modelled as `Err.panicked`. -/
def apply_updates {R K : Type} [DecidableEq K] (uv : R → K) :
    List R → List R → Except (Err K) (List R)
  | records, [] => .ok records
  | records, ur :: rest =>
    match replace_first uv ur records with
    | some records' => apply_updates uv records' rest
    | none => .error (.panicked "All records should exist as it was checked before.")

/-- update_all_with_path (src/database/operation_path.rs): read the current
collection, run check_is_all_existing_records, replace each matching record in
place, and write the full collection back. -/
def update_all_with_path {R K : Type} [DecidableEq K] (uv : R → K)
    (updated_records : List R) (path : String) (s : Option (List R)) :
    Except (Err K) (List R) :=
  match get_all_with_path path s with
  | .error e => .error e
  | .ok records =>
    match check_is_all_existing_records uv records updated_records path with
    | .error e => .error e
    | .ok () => apply_updates uv records updated_records

/-- update_with_path (src/database/operation_path.rs). -/
def update_with_path {R K : Type} [DecidableEq K] (uv : R → K)
    (updated_record : R) (path : String) (s : Option (List R)) : Except (Err K) (List R) :=
  update_all_with_path uv [updated_record] path s

/-- The accumulation loop of replace_all_with_path: push each record after
checking its key is not already accumulated; fail with `DBOperationFailure` on
the first duplicate. -/
def replace_all_loop {R K : Type} [DecidableEq K] (uv : R → K) (path : String) :
    List R → List R → Except (Err K) (List R)
  | acc, [] => .ok acc
  | acc, ur :: rest =>
    match find_by_unique uv acc (uv ur) with
    | some duplicate_record => .error (.opFailure path [uv duplicate_record])
    | none => replace_all_loop uv path (acc ++ [ur]) rest

/-- replace_all_with_path (src/database/operation_path.rs): ignores the stored
collection entirely; scans the replacement set for intra-set duplicates as the
records are added and writes the accumulated set. -/
def replace_all_with_path {R K : Type} [DecidableEq K] (uv : R → K)
    (updated_records : List R) (path : String) : Except (Err K) (List R) :=
  replace_all_loop uv path [] updated_records

/-- The per-record merge loop of upsert: update in place when the key exists,
append otherwise. -/
def upsert_merge {R K : Type} [DecidableEq K] (uv : R → K) :
    List R → List R → List R
  | records, [] => records
  | records, ur :: rest =>
    match replace_first uv ur records with
    | some records' => upsert_merge uv records' rest
    | none => upsert_merge uv (records ++ [ur]) rest

/-- Modelled from the spec: `upsert_with_path` and `upsert_all_with_path` are
invoked by `DatabaseOps::upsert` / `DatabaseOps::upsert_all`
(src/database/operation.rs) but their implementation is not among the provided
sources.  Spec section 4.3: "for each record, if its key exists, behave like
update for that record; otherwise behave like insert; always succeeds unless
the underlying write fails; never reports duplicate/missing errors since both
outcomes are valid".  Like insert/update it first reads the current collection
at the path. -/
def upsert_all_with_path {R K : Type} [DecidableEq K] (uv : R → K)
    (upserted_records : List R) (path : String) (s : Option (List R)) :
    Except (Err K) (List R) :=
  match get_all_with_path path s with
  | .error e => .error e
  | .ok records => .ok (upsert_merge uv records upserted_records)

/-- Modelled from the spec: the single-record upsert wraps a one-element batch,
like insert_with_path and update_with_path do. -/
def upsert_with_path {R K : Type} [DecidableEq K] (uv : R → K)
    (upserted_record : R) (path : String) (s : Option (List R)) : Except (Err K) (List R) :=
  upsert_all_with_path uv [upserted_record] path s

/-- try_populate_storage (src/utils.rs), specialized to collection storage: a
readable path is left untouched, an absent path is written with the default. -/
def try_populate_storage {R : Type} (default_data : List R) (s : Option (List R)) :
    Option (List R) :=
  match s with
  | some records => some records
  | none => some default_data

/-- One mutation of the CRUD surface of `DatabaseOps` named in the uniqueness
claim: insert, insert_all, update, update_all, upsert, upsert_all, replace_all. -/
inductive DBOp (R : Type) where
  | insertOne (r : R)
  | insertAll (rs : List R)
  | updateOne (r : R)
  | updateAll (rs : List R)
  | upsertOne (r : R)
  | upsertAll (rs : List R)
  | replaceAll (rs : List R)
  deriving DecidableEq

/-- Dispatch one operation against the stored collection, returning the newly
written collection on success. -/
def runOp {R K : Type} [DecidableEq K] (uv : R → K) (path : String)
    (op : DBOp R) (s : Option (List R)) : Except (Err K) (List R) :=
  match op with
  | .insertOne r => insert_with_path uv r path s
  | .insertAll rs => insert_all_with_path uv rs path s
  | .updateOne r => update_with_path uv r path s
  | .updateAll rs => update_all_with_path uv rs path s
  | .upsertOne r => upsert_with_path uv r path s
  | .upsertAll rs => upsert_all_with_path uv rs path s
  | .replaceAll rs => replace_all_with_path uv rs path

/-- The mutation-in-place semantics of one operation: on success the partition
file now holds the written collection, on failure it is exactly as before. -/
def run_with_path {R K : Type} [DecidableEq K] (uv : R → K) (op : DBOp R)
    (path : String) (s : Option (List R)) : Option (List R) × Option (Err K) :=
  match runOp uv path op s with
  | .ok written => (some written, none)
  | .error e => (s, some e)

/-- Run a sequence of operations against an initialized partition, stopping at
the first failure. -/
def runOps {R K : Type} [DecidableEq K] (uv : R → K) (path : String) :
    List (DBOp R) → List R → Except (Err K) (List R)
  | [], l => .ok l
  | op :: ops, l =>
    match runOp uv path op (some l) with
    | .ok l' => runOps uv path ops l'
    | .error e => .error e

theorem check_new_ok_iff {R K : Type} [DecidableEq K] (uv : R → K)
    (cur new : List R) (path : String) :
    check_is_all_new_records uv cur new path = .ok () ↔
      (as_uniques uv cur ++ as_uniques uv new).Nodup := by
  rw [check_is_all_new_records]
  by_cases h : (find_intersecting_uniques_from uv cur new).isEmpty
  · rw [if_pos h]
    rw [List.isEmpty_iff] at h
    rw [find_intersecting_uniques_from, duplicates_eq_nil_iff] at h
    simp [h]
  · rw [if_neg h]
    rw [List.isEmpty_iff] at h
    rw [find_intersecting_uniques_from, duplicates_eq_nil_iff] at h
    simp [h]

theorem replace_first_none_iff {R K : Type} [DecidableEq K] (uv : R → K) (ur : R) :
    ∀ l : List R, replace_first uv ur l = none ↔ uv ur ∉ as_uniques uv l := by
  intro l
  induction l with
  | nil => simp [replace_first, as_uniques]
  | cons r rs ih =>
    rw [replace_first]
    by_cases h : uv r = uv ur
    · rw [if_pos h]
      simp [as_uniques, h]
    · rw [if_neg h]
      rw [as_uniques, List.map_cons, List.mem_cons]
      rw [as_uniques] at ih
      constructor
      · intro hmap
        rw [Option.map_eq_none'] at hmap
        rw [ih] at hmap
        intro hc
        rcases hc with hc | hc
        · exact h hc.symm
        · exact hmap hc
      · intro hmem
        rw [Option.map_eq_none', ih]
        intro hc
        exact hmem (Or.inr hc)

theorem replace_first_some_keys {R K : Type} [DecidableEq K] (uv : R → K) (ur : R) :
    ∀ l l' : List R, replace_first uv ur l = some l' →
      as_uniques uv l' = as_uniques uv l := by
  intro l
  induction l with
  | nil => intro l' h; simp [replace_first] at h
  | cons r rs ih =>
    intro l' h
    rw [replace_first] at h
    by_cases hk : uv r = uv ur
    · rw [if_pos hk] at h
      cases h
      simp [as_uniques, hk]
    · rw [if_neg hk] at h
      rw [Option.map_eq_some'] at h
      obtain ⟨rs', hrs', rfl⟩ := h
      have h2 := ih rs' hrs'
      simp only [as_uniques] at h2 ⊢
      simp [h2]

theorem apply_updates_keys {R K : Type} [DecidableEq K] (uv : R → K) :
    ∀ (upd records res : List R), apply_updates uv records upd = .ok res →
      as_uniques uv res = as_uniques uv records := by
  intro upd
  induction upd with
  | nil => intro records res h; cases h; rfl
  | cons ur rest ih =>
    intro records res h
    rw [apply_updates] at h
    cases hr : replace_first uv ur records with
    | none => rw [hr] at h; cases h
    | some records' =>
      rw [hr] at h
      rw [ih records' res h]
      exact replace_first_some_keys uv ur records records' hr

theorem upsert_merge_nodup {R K : Type} [DecidableEq K] (uv : R → K) :
    ∀ (ups records : List R), (as_uniques uv records).Nodup →
      (as_uniques uv (upsert_merge uv records ups)).Nodup := by
  intro ups
  induction ups with
  | nil => intro records h; exact h
  | cons ur rest ih =>
    intro records h
    rw [upsert_merge]
    cases hr : replace_first uv ur records with
    | some records' =>
      refine ih records' ?_
      rw [replace_first_some_keys uv ur records records' hr]
      exact h
    | none =>
      refine ih (records ++ [ur]) ?_
      have hnot : uv ur ∉ as_uniques uv records := (replace_first_none_iff uv ur records).mp hr
      rw [as_uniques, List.map_append]
      rw [List.nodup_append]
      refine ⟨h, List.nodup_singleton _, ?_⟩
      intro a ha hb
      rw [List.map_singleton, List.mem_singleton] at hb
      subst hb
      exact hnot ha

theorem find_by_unique_eq_none_iff {R K : Type} [DecidableEq K] (uv : R → K)
    (l : List R) (u : K) :
    find_by_unique uv l u = none ↔ u ∉ as_uniques uv l := by
  rw [find_by_unique, List.find?_eq_none]
  constructor
  · intro h hc
    rw [as_uniques, List.mem_map] at hc
    obtain ⟨r, hr, hru⟩ := hc
    exact h r hr (by simp [hru])
  · intro h r hr
    simp only [decide_eq_true_eq]
    intro hc
    exact h (by rw [as_uniques, List.mem_map]; exact ⟨r, hr, hc⟩)

theorem replace_all_loop_nodup {R K : Type} [DecidableEq K] (uv : R → K) (path : String) :
    ∀ (rest acc res : List R), (as_uniques uv acc).Nodup →
      replace_all_loop uv path acc rest = .ok res → (as_uniques uv res).Nodup := by
  intro rest
  induction rest with
  | nil => intro acc res h hr; cases hr; exact h
  | cons ur rest' ih =>
    intro acc res h hr
    rw [replace_all_loop] at hr
    cases hf : find_by_unique uv acc (uv ur) with
    | some dup => rw [hf] at hr; cases hr
    | none =>
      rw [hf] at hr
      refine ih (acc ++ [ur]) res ?_ hr
      have hnot : uv ur ∉ as_uniques uv acc := (find_by_unique_eq_none_iff uv acc (uv ur)).mp hf
      rw [as_uniques, List.map_append, List.nodup_append]
      refine ⟨h, List.nodup_singleton _, ?_⟩
      intro a ha hb
      rw [List.map_singleton, List.mem_singleton] at hb
      subst hb
      exact hnot ha

theorem runOp_nodup {R K : Type} [DecidableEq K] (uv : R → K) (path : String)
    (op : DBOp R) (l l' : List R) (h : (as_uniques uv l).Nodup)
    (hr : runOp uv path op (some l) = .ok l') : (as_uniques uv l').Nodup := by
  have hins : ∀ rs, insert_all_with_path uv rs path (some l) = .ok l' →
      (as_uniques uv l').Nodup := by
    intro rs hi
    rw [insert_all_with_path] at hi
    simp only [get_all_with_path] at hi
    cases hc : check_is_all_new_records uv l rs path with
    | error e => rw [hc] at hi; cases hi
    | ok u =>
      cases u
      rw [hc] at hi
      cases hi
      rw [as_uniques, List.map_append]
      exact (check_new_ok_iff uv l rs path).mp hc
  have hupd : ∀ rs, update_all_with_path uv rs path (some l) = .ok l' →
      (as_uniques uv l').Nodup := by
    intro rs hu
    rw [update_all_with_path] at hu
    simp only [get_all_with_path] at hu
    cases hc : check_is_all_existing_records uv l rs path with
    | error e => rw [hc] at hu; cases hu
    | ok u =>
      cases u
      rw [hc] at hu
      rw [apply_updates_keys uv rs l l' hu]
      exact h
  have hups : ∀ rs, upsert_all_with_path uv rs path (some l) = .ok l' →
      (as_uniques uv l').Nodup := by
    intro rs hu
    rw [upsert_all_with_path] at hu
    simp only [get_all_with_path] at hu
    cases hu
    exact upsert_merge_nodup uv rs l h
  cases op with
  | insertOne r => exact hins [r] hr
  | insertAll rs => exact hins rs hr
  | updateOne r => exact hupd [r] hr
  | updateAll rs => exact hupd rs hr
  | upsertOne r => exact hups [r] hr
  | upsertAll rs => exact hups rs hr
  | replaceAll rs =>
    exact replace_all_loop_nodup uv path rs [] l' (by simp [as_uniques]) hr

theorem runOps_nodup {R K : Type} [DecidableEq K] (uv : R → K) (path : String) :
    ∀ (ops : List (DBOp R)) (init final : List R), (as_uniques uv init).Nodup →
      runOps uv path ops init = .ok final → (as_uniques uv final).Nodup := by
  intro ops
  induction ops with
  | nil => intro init final h hr; cases hr; exact h
  | cons op rest ih =>
    intro init final h hr
    rw [runOps] at hr
    cases ho : runOp uv path op (some init) with
    | error e => rw [ho] at hr; cases hr
    | ok mid =>
      rw [ho] at hr
      exact ih mid final (runOp_nodup uv path op init mid h ho) hr

/-- Concrete record instance used to evaluate the definitions: a numeric
unique key paired with a string payload, as in the tests' TestRecord. -/
abbrev SRec := Nat × String

/-- unique_value of the concrete record instance. -/
def skey : SRec → Nat := Prod.fst

/-- Characterization of one insert_all call as a mutation: it fails with the
duplicate-key operation error exactly when the concatenation of current and
new key lists has a duplicated key, and writes the appended collection
otherwise. -/
theorem run_insertAll_eq {R K : Type} [DecidableEq K] (uv : R → K)
    (cur new : List R) (path : String) :
    run_with_path uv (DBOp.insertAll new) path (some cur) =
      (if (as_uniques uv cur ++ as_uniques uv new).Nodup
       then (some (cur ++ new), none)
       else (some cur,
        some (Err.opFailure path (duplicates (as_uniques uv cur ++ as_uniques uv new))))) := by
  by_cases h : (as_uniques uv cur ++ as_uniques uv new).Nodup
  · have hc : check_is_all_new_records uv cur new path = .ok () :=
      (check_new_ok_iff uv cur new path).mpr h
    rw [if_pos h]
    simp [run_with_path, runOp, insert_all_with_path, get_all_with_path, hc]
  · have hne : ¬ (find_intersecting_uniques_from uv cur new).isEmpty := by
      rw [List.isEmpty_iff, find_intersecting_uniques_from, duplicates_eq_nil_iff]
      exact h
    have hc : check_is_all_new_records uv cur new path =
        .error (.opFailure path (duplicates (as_uniques uv cur ++ as_uniques uv new))) := by
      rw [check_is_all_new_records, if_neg hne, find_intersecting_uniques_from]
    rw [if_neg h]
    simp [run_with_path, runOp, insert_all_with_path, get_all_with_path, hc]

/-- C1: starting from an initialized partition whose records have
pairwise-distinct unique keys, every sequence of insert, insert_all, update,
update_all, upsert, upsert_all and replace_all calls that all succeed leaves a
collection for which get_all returns records with pairwise-distinct unique
keys. -/
theorem uniqueness_invariant_preserved {R K : Type} [DecidableEq K] (uv : R → K)
    (path : String) (ops : List (DBOp R)) (init final : List R)
    (hinit : (as_uniques uv init).Nodup)
    (hrun : runOps uv path ops init = .ok final) :
    get_all_with_path (K := K) path (some final) = .ok final ∧
      List.Pairwise (fun a b => uv a ≠ uv b) final := by
  refine ⟨rfl, ?_⟩
  have h := runOps_nodup uv path ops init final hinit hrun
  rw [as_uniques, List.Nodup, List.pairwise_map] at h
  exact h

/-- Closed instance of the C1 theorem on a concrete run mixing all operation
kinds. -/
theorem uniqueness_invariant_preserved_witness :
    (as_uniques skey [(1, "a")]).Nodup ∧
    runOps skey "p"
      [DBOp.insertOne (2, "b"), DBOp.upsertAll [(1, "a1"), (3, "c")],
        DBOp.updateAll [(2, "b2")], DBOp.replaceAll [(5, "e"), (6, "f")]]
      [(1, "a")] = .ok [(5, "e"), (6, "f")] ∧
    (get_all_with_path (K := Nat) "p" (some [(5, "e"), (6, "f")]) = .ok [(5, "e"), (6, "f")] ∧
      List.Pairwise (fun a b => skey a ≠ skey b) [(5, "e"), (6, "f")]) :=
  ⟨by decide, by rfl,
    uniqueness_invariant_preserved skey "p"
      [DBOp.insertOne (2, "b"), DBOp.upsertAll [(1, "a1"), (3, "c")],
        DBOp.updateAll [(2, "b2")], DBOp.replaceAll [(5, "e"), (6, "f")]]
      [(1, "a")] [(5, "e"), (6, "f")] (by decide) (by rfl)⟩

theorem check_existing_singleton_ok {R K : Type} [DecidableEq K] (uv : R → K)
    (l : List R) (r : R) (path : String) (hmem : uv r ∈ as_uniques uv l) :
    check_is_all_existing_records uv l [r] path = .ok () := by
  have hdup : uv r ∈ duplicates (as_uniques uv l ++ as_uniques uv [r]) := by
    rw [mem_duplicates, List.count_append]
    have h1 : 0 < List.count (uv r) (as_uniques uv l) := List.count_pos_iff.mpr hmem
    have h2 : List.count (uv r) (as_uniques uv [r]) = 1 := by
      simp [as_uniques]
    omega
  have hfilter : find_non_intersecting_uniques_from uv l [r] = [] := by
    rw [find_non_intersecting_uniques_from, List.filter_eq_nil_iff]
    intro a ha
    rw [as_uniques, List.map_singleton, List.mem_singleton] at ha
    subst ha
    rw [find_intersecting_uniques_from]
    simp [hdup]
  rw [check_is_all_existing_records, hfilter]
  rfl

/-- C2 (upsert modelled from the spec, its source body being absent): upsert of
a record whose key is present behaves exactly like update, otherwise exactly
like insert; upsert_all on an initialized partition always succeeds and so
never reports a duplicate-key or missing-key operation error; and upserting
key 1 with "a" then key 1 with "b" from an empty partition yields exactly one
record, keyed 1 and carrying "b". -/
theorem upsert_update_or_insert :
    (∀ (R K : Type) [DecidableEq K] (uv : R → K) (path : String) (l : List R) (r : R),
        (as_uniques uv l).Nodup →
        upsert_with_path uv r path (some l) =
          (if uv r ∈ as_uniques uv l then update_with_path uv r path (some l)
           else insert_with_path uv r path (some l))) ∧
    (∀ (R K : Type) [DecidableEq K] (uv : R → K) (path : String) (l ups : List R),
        ∃ written, upsert_all_with_path uv ups path (some l) = .ok written) ∧
    runOps skey "p" [DBOp.upsertOne (1, "a"), DBOp.upsertOne (1, "b")] [] = .ok [(1, "b")] := by
  refine ⟨?_, ?_, by rfl⟩
  · intro R K _ uv path l r hnodup
    by_cases hmem : uv r ∈ as_uniques uv l
    · rw [if_pos hmem]
      cases hrf : replace_first uv r l with
      | none =>
        exact absurd hmem ((replace_first_none_iff uv r l).mp hrf)
      | some l' =>
        have hlhs : upsert_with_path uv r path (some l) = .ok l' := by
          simp [upsert_with_path, upsert_all_with_path, get_all_with_path, upsert_merge, hrf]
        have hchk := check_existing_singleton_ok uv l r path hmem
        have hrhs : update_with_path uv r path (some l) = .ok l' := by
          simp [update_with_path, update_all_with_path, get_all_with_path, hchk,
            apply_updates, hrf]
        rw [hlhs, hrhs]
    · rw [if_neg hmem]
      cases hrf : replace_first uv r l with
      | some l' =>
        have : uv r ∈ as_uniques uv l := by
          by_contra hc
          rw [← replace_first_none_iff uv r l] at hc
          rw [hc] at hrf
          cases hrf
        exact absurd this hmem
      | none =>
        have hnodup2 : (as_uniques uv l ++ as_uniques uv [r]).Nodup := by
          rw [List.nodup_append]
          refine ⟨hnodup, by simp [as_uniques], ?_⟩
          intro a ha hb
          rw [as_uniques, List.map_singleton, List.mem_singleton] at hb
          subst hb
          exact hmem ha
        have hchk : check_is_all_new_records uv l [r] path = .ok () :=
          (check_new_ok_iff uv l [r] path).mpr hnodup2
        simp [upsert_with_path, upsert_all_with_path, get_all_with_path, upsert_merge, hrf,
          insert_with_path, insert_all_with_path, hchk]
  · intro R K _ uv path l ups
    exact ⟨upsert_merge uv l ups, rfl⟩

/-- Closed instance of the C2 theorem: key 1 exists, so upsert equals update. -/
theorem upsert_update_or_insert_witness :
    (as_uniques skey [(1, "a"), (2, "b")]).Nodup ∧
    upsert_with_path skey (1, "c") "p" (some [(1, "a"), (2, "b")]) =
      (if skey (1, "c") ∈ as_uniques skey [(1, "a"), (2, "b")] then
        update_with_path skey (1, "c") "p" (some [(1, "a"), (2, "b")])
      else insert_with_path skey (1, "c") "p" (some [(1, "a"), (2, "b")])) :=
  ⟨by decide, upsert_update_or_insert.1 SRec Nat skey "p" [(1, "a"), (2, "b")] (1, "c") (by decide)⟩

/-- C7 counterexample: the stored keys [1] and the new batch keys [2, 2] have
an empty intersection, yet insert_all fails with the duplicate-key operation
error instead of writing the union, because the check collects the duplicated
keys of the concatenation of the two key lists. -/
theorem insert_intersection_empty_yet_fails :
    (as_uniques skey [(1, "x")]).inter (as_uniques skey [(2, "a"), (2, "b")]) = [] ∧
    insert_all_with_path skey [(2, "a"), (2, "b")] "p" (some [(1, "x")]) =
      .error (.opFailure "p" [2]) :=
  ⟨by decide, by rfl⟩

/-- C7 amended: insert_all fails with the duplicate-key operation error exactly
when the concatenation of current and new key lists contains a duplicated key
(in particular whenever the intersection of current and new keys is non-empty,
but also on duplicates within the new batch or within the stored collection),
performing no write; otherwise it appends the new records to the current
collection and writes that union. -/
theorem insert_all_checks_concatenated_keys {R K : Type} [DecidableEq K] (uv : R → K)
    (cur new : List R) (path : String) :
    run_with_path uv (DBOp.insertAll new) path (some cur) =
      (if (as_uniques uv cur ++ as_uniques uv new).Nodup
       then (some (cur ++ new), none)
       else (some cur,
        some (Err.opFailure path (duplicates (as_uniques uv cur ++ as_uniques uv new))))) :=
  run_insertAll_eq uv cur new path

/-- C8: the update precheck misses an absent key that is duplicated inside the
update batch.  With stored keys [1] and two updates both keyed 2,
find_non_intersecting_uniques_from is empty (2 is a duplicate of the
concatenated key lists), so the check passes and the update loop then panics
on its expect instead of failing with the missing-key operation error. -/
theorem update_all_duplicated_absent_key_panics :
    find_non_intersecting_uniques_from skey [(1, "x")] [(2, "a"), (2, "b")] = [] ∧
    update_all_with_path skey [(2, "a"), (2, "b")] "p" (some [(1, "x")]) =
      .error (.panicked "All records should exist as it was checked before.") :=
  ⟨by rfl, by rfl⟩

/-- C10: insert_all fails with a duplicate-key operation error and performs no
write whenever the new batch itself contains two records with equal unique
keys, whatever the stored collection contains. -/
theorem insert_all_rejects_intra_batch_duplicates {R K : Type} [DecidableEq K] (uv : R → K)
    (cur new : List R) (path : String) (hdup : ¬ (as_uniques uv new).Nodup) :
    run_with_path uv (DBOp.insertAll new) path (some cur) =
      (some cur,
        some (Err.opFailure path (duplicates (as_uniques uv cur ++ as_uniques uv new)))) ∧
      duplicates (as_uniques uv cur ++ as_uniques uv new) ≠ [] := by
  have hconcat : ¬ (as_uniques uv cur ++ as_uniques uv new).Nodup := by
    intro h
    exact hdup h.of_append_right
  constructor
  · rw [run_insertAll_eq, if_neg hconcat]
  · rw [Ne, duplicates_eq_nil_iff]
    exact hconcat

/-- Closed instance of the C10 theorem: batch keys [2, 2] are disjoint from the
stored key [1] and still rejected. -/
theorem insert_all_rejects_intra_batch_duplicates_witness :
    ¬ (as_uniques skey [(2, "a"), (2, "b")]).Nodup ∧
    (run_with_path skey (DBOp.insertAll [(2, "a"), (2, "b")]) "p" (some [(1, "x")]) =
      (some [(1, "x")],
        some (Err.opFailure "p"
          (duplicates (as_uniques skey [(1, "x")] ++ as_uniques skey [(2, "a"), (2, "b")])))) ∧
      duplicates (as_uniques skey [(1, "x")] ++ as_uniques skey [(2, "a"), (2, "b")]) ≠ []) :=
  ⟨by decide,
    insert_all_rejects_intra_batch_duplicates skey [(1, "x")] [(2, "a"), (2, "b")] "p" (by decide)⟩

/-- Display strings of src/error.rs (derive_more `Display` attributes), with
`std::path::absolute` modelled as the identity on the stored path text and the
preformatted reason string of `DBOperationFailure` rendered from its
conflicting keys; no claim depends on the opFailure text. -/
def errToString : Err Nat → String
  | .notFound path => "Database file at [" ++ path ++ "] not found."
  | .corrupt path reason =>
      "Database file at [" ++ path ++ "] is corrupt, caused by: [" ++ reason ++ "]"
  | .opFailure path dups =>
      "Database operation failed: [" ++ path ++ "], caused by: [" ++ toString dups ++ "]"
  | .ioWrite path reason =>
      "Write to file at [" ++ path ++ "] failed, caused by: [" ++ reason ++ "]"
  | .ioCopy src dst reason =>
      "Copy from [" ++ src ++ "] to [" ++ dst ++ "] failed, caused by: [" ++ reason ++ "]"
  | .panicked msg => "panicked: " ++ msg
  | .commitFailure path reason =>
      "Database transaction commit failed: [" ++ path ++ "], caused by: [" ++ reason ++ "]"
  | .rollbackFailure path reason =>
      "Database transaction rollback failed: [" ++ path ++ "], caused by: [" ++ reason ++ "]"

/-- Heap of allocated in-memory stores.  MemoryDB (src/engine/memorydb.rs)
holds `store: Arc<RwLock<HashMap<PathBuf, Vec<u8>>>>`; each allocated Arc is
one heap cell here, restricted to the one partition the transaction claims
exercise, so a cell holds that partition's stored collection (`none` when the
map has no entry for its path). -/
abbrev Heap (R : Type) := List (Option (List R))

/-- A MemoryDB handle: the Arc pointer into the heap. -/
structure MemoryDBRef where
  ptr : Nat
  deriving DecidableEq

/-- MemoryDB::new: allocate a fresh store holding an empty map. -/
def memNew {R : Type} (h : Heap R) : MemoryDBRef × Heap R :=
  (⟨h.length⟩, h ++ [none])

/-- MemoryDB clone via `#[derive(Clone)]`: Arc::clone, so the returned handle
shares the same underlying map. -/
def memClone (db : MemoryDBRef) : MemoryDBRef := db

/-- The partition cell a handle points at. -/
def memCell {R : Type} (h : Heap R) (db : MemoryDBRef) : Option (List R) :=
  h.getD db.ptr none

/-- MemoryDB read of the partition: `DBNotFound` when the shared map has no
entry at the partition's path. -/
def memReadAll {R K : Type} (h : Heap R) (db : MemoryDBRef) : Except (Err K) (List R) :=
  get_all_with_path "TestRecordPartitioned" (memCell h db)

/-- MemoryDB write of the partition: insert the encoded collection into the
shared map.  In-memory writes always succeed. -/
def memWrite {R : Type} (h : Heap R) (db : MemoryDBRef) (l : List R) : Heap R :=
  h.set db.ptr (some l)

/-- CborDBTransaction (src/engine/cbordb.rs): the before and after snapshots. -/
structure CborDBTransaction where
  records_before : MemoryDBRef
  records_after : MemoryDBRef

/-- CborDBTransaction construction (src/engine/cbordb.rs, `Database::new` for
CborDBTransaction): builds ONE MemoryDB, stores its clone in records_before
and the original in records_after — both handles share the same Arc-backed
map. -/
def cborTransactionNew {R : Type} (h : Heap R) : CborDBTransaction × Heap R :=
  let (memory_db, h') := memNew (R := R) h
  ({ records_before := memClone memory_db, records_after := memory_db }, h')

/-- CborDBTransaction::try_initialize_file: read through the transaction's own
storage (records_after); on `DBNotFound`, write the default records through
records_after; a readable partition is left untouched. -/
def cbor_try_initialize_file {R : Type} (h : Heap R) (tx : CborDBTransaction)
    (default_records : List R) : Heap R :=
  match memCell h tx.records_after with
  | some _ => h
  | none => memWrite h tx.records_after default_records

/-- A CRUD mutation issued against the transaction: `DatabaseOps` runs the
whole read-modify-write cycle through the transaction's storage, which routes
reads and writes to records_after. -/
def cborTxRunOp {R K : Type} [DecidableEq K] (uv : R → K) (h : Heap R)
    (tx : CborDBTransaction) (op : DBOp R) : Heap R × Option (Err K) :=
  match runOp uv "TestRecordPartitioned" op (memCell h tx.records_after) with
  | .ok written => (memWrite h tx.records_after written, none)
  | .error e => (h, some e)

/-- Reading the before snapshot, as CborDB::try_rollback does:
`transaction.records_before.get_all`. -/
def cborReadBefore {R K : Type} (h : Heap R) (tx : CborDBTransaction) :
    Except (Err K) (List R) :=
  get_all_with_path "TestRecordPartitioned" (memCell h tx.records_before)

/-- DatabaseOps::replace_all run against the primary CborDB partition file, as
used by try_commit: validate the records and overwrite the file on success. -/
def cborPrimaryReplaceAll {R K : Type} [DecidableEq K] (uv : R → K)
    (p : Option (List R)) (records : List R) : Option (List R) × Option (Err K) :=
  match replace_all_with_path uv records "TestRecordPartitioned" with
  | .ok written => (some written, none)
  | .error e => (p, some e)

/-- CborDB::try_rollback (src/engine/cbordb.rs): read records_before and write
that collection to the primary's partition file, whatever the primary holds. -/
def cbor_try_rollback {R K : Type} (h : Heap R) (tx : CborDBTransaction)
    (p : Option (List R)) : Option (List R) × Option (Err K) :=
  match cborReadBefore (K := K) h tx with
  | .error e => (p, some e)
  | .ok records_before => (some records_before, none)

/-- DatabaseTransaction::try_commit for CborDB (src/database.rs): read the
transaction's records (through records_after) and replace_all them into the
primary; on failure, attempt try_rollback and wrap the causes. -/
def cbor_try_commit {R : Type} (uv : R → Nat) (h : Heap R) (tx : CborDBTransaction)
    (p : Option (List R)) : Option (List R) × Option (Err Nat) :=
  match memReadAll (K := Nat) h tx.records_after with
  | .error e => (p, some e)
  | .ok records =>
    match cborPrimaryReplaceAll uv p records with
    | (p', none) => (p', none)
    | (p', some e) =>
      match cbor_try_rollback (K := Nat) h tx p' with
      | (p2, some e2) =>
        (p2, some (.rollbackFailure "TestRecordPartitioned" (errToString e2)))
      | (p2, none) =>
        (p2, some (.commitFailure "TestRecordPartitioned" (errToString e)))

/-- JsonDBTransaction (src/engine/jsondb.rs): two MemoryDB snapshots allocated
independently by `new`, modelled as two independent partition cells. -/
structure JsonDBTransaction (R : Type) where
  records_before : Option (List R)
  records_after : Option (List R)

/-- JsonDBTransaction::try_read_storage: routes to records_after. -/
def jsonTxReadAfter {R K : Type} (tx : JsonDBTransaction R) (transaction_path : String) :
    Except (Err K) (List R) :=
  get_all_with_path transaction_path tx.records_after

/-- JsonDBTransaction::try_read_storage_before: routes to records_before. -/
def jsonTxReadBefore {R K : Type} (tx : JsonDBTransaction R) (transaction_path : String) :
    Except (Err K) (List R) :=
  get_all_with_path transaction_path tx.records_before

/-- The primary file store seen by try_commit_with_path: the stored collection
at the database path, plus a model of which writes fail.  A write failure is
data-dependent (for instance the codec refusing a value), which is how a
commit's write can fail while the rollback's write of different data
succeeds. -/
structure FilePrimary (R : Type) where
  content : Option (List R)
  failWrite : List R → Option String

/-- DatabaseIO::try_write_storage against the primary file store. -/
def fpTryWriteStorage {R : Type} (p : FilePrimary R) (database_path : String)
    (data : List R) : Except (Err Nat) (FilePrimary R) :=
  match p.failWrite data with
  | some reason => .error (.ioWrite database_path reason)
  | none => .ok { p with content := some data }

/-- DatabaseTransaction::try_rollback_with_path (src/transaction/mod.rs): read
the before snapshot at the transaction path and write it to the primary at the
database path. -/
def try_rollback_with_path {R : Type} (p : FilePrimary R) (tx : JsonDBTransaction R)
    (transaction_path database_path : String) : FilePrimary R × Option (Err Nat) :=
  match jsonTxReadBefore (K := Nat) tx transaction_path with
  | .error e => (p, some e)
  | .ok records_before =>
    match fpTryWriteStorage p database_path records_before with
    | .error e => (p, some e)
    | .ok p' => (p', none)

/-- DatabaseTransaction::try_commit_with_path (src/transaction/mod.rs): read
the after snapshot at the transaction path and write it to the primary at the
database path; if that write fails, attempt try_rollback_with_path, wrapping a
failed rollback in DBTransactionRollbackFailure carrying the rollback error's
text, and a successful rollback in DBTransactionCommitFailure carrying the
original write error's text. -/
def try_commit_with_path {R : Type} (p : FilePrimary R) (tx : JsonDBTransaction R)
    (transaction_path database_path : String) : FilePrimary R × Option (Err Nat) :=
  match jsonTxReadAfter (K := Nat) tx transaction_path with
  | .error e => (p, some e)
  | .ok records =>
    match fpTryWriteStorage p database_path records with
    | .ok p' => (p', none)
    | .error e =>
      match try_rollback_with_path p tx transaction_path database_path with
      | (p2, some e2) => (p2, some (.rollbackFailure database_path (errToString e2)))
      | (p2, none) => (p2, some (.commitFailure database_path (errToString e)))

/-- Byte-level store of a file backend: the stored bytes at each path. -/
abbrev ByteStore := String → Option (List Nat)

/-- PathBuf::with_added_extension: append a dot and the extension text. -/
def with_added_extension (path ext : String) : String := path ++ "." ++ ext

/-- Modelled from the spec: `try_copy_file` (called by JsonDB::try_copy_storage
in src/engine/jsondb.rs) is not among the provided sources; spec section 4.2
gives `copy(src, dst) -> Ok | IOFailure` as a byte-for-byte copy, and fs::copy
fails on a missing source. -/
def try_copy_file (s : ByteStore) (src dst : String) : Except (Err Nat) ByteStore :=
  match s src with
  | none => .error (.ioCopy src dst "No such file or directory")
  | some bytes => .ok (fun p => if p = dst then some bytes else s p)

/-- DatabaseIO::try_backup_storage (src/database/io.rs): the backup path is the
original path with added extension `format!("{}-{}.bak", timestamp, reason)`,
the timestamp being chrono's Unix seconds at the time of the call; the stored
bytes are then copied to it and the backup path returned. -/
def try_backup_storage (s : ByteStore) (path reason : String) (timestamp : Int) :
    Except (Err Nat) (String × ByteStore) :=
  let backup_path := with_added_extension path (toString timestamp ++ "-" ++ reason ++ ".bak")
  match try_copy_file s path backup_path with
  | .error e => .error e
  | .ok s' => .ok (backup_path, s')

/-- backup_failed_parse (src/utils.rs): back the undecodable file up through
try_backup_storage with reason FAILED_PARSING, then surface DBCorrupt wrapping
the decode error's text; when the backup itself fails, its error is returned
instead. -/
def backup_failed_parse (s : ByteStore) (path : String) (timestamp : Int)
    (decode_error : String) : ByteStore × Err Nat :=
  match try_backup_storage s path "FAILED_PARSING" timestamp with
  | .ok (_, s') =>
    (s', .corrupt path ("Deserialization failed, caused by: [" ++ decode_error ++ "]"))
  | .error e => (s, e)

/-- A multi-partition database state: the stored collection at each path. -/
abbrev PState (R : Type) := String → Option (List R)

/-- A single-kind operation run against the shared database at the kind's
partition path, with the engine's mutate-on-success semantics. -/
def applyAtPartition {R K : Type} [DecidableEq K] (uv : R → K) (op : DBOp R)
    (name : String) (s : PState R) : PState R × Option (Err K) :=
  match runOp uv name op (s name) with
  | .ok written => ((fun p => if p = name then some written else s p), none)
  | .error e => (s, some e)

/-- impl OperatablePartitioned for R1 (src/record/operatable.rs): every method
body of the arity-1 instance is `todo!()`, panicking with "not yet
implemented" before touching the database; get_all is shown representative. -/
def op1_get_all {R K : Type} (_s : PState R) : Except (Err K) (List R) :=
  .error (.panicked "not yet implemented")

/-- impl OperatablePartitioned for (R1, R2) (src/record/operatable.rs):
insert_all runs the first kind's insert_all against the shared database, then
short-circuits via `?` into the second kind's insert_all. -/
def op2_insert_all {R K : Type} [DecidableEq K] (uv : R → K) (n1 n2 : String)
    (c1 c2 : List R) (s : PState R) : PState R × Option (Err K) :=
  match applyAtPartition uv (DBOp.insertAll c1) n1 s with
  | (s1, some e) => (s1, some e)
  | (s1, none) => applyAtPartition uv (DBOp.insertAll c2) n2 s1

/-- Prefix test on character lists, used to state "embedded as text". -/
def startsWithChars : List Char → List Char → Bool
  | _, [] => true
  | [], _ :: _ => false
  | c :: cs, p :: ps => c = p && startsWithChars cs ps

/-- Occurrence of a pattern as a contiguous run of characters. -/
def containsChars (pat : List Char) : List Char → Bool
  | [] => startsWithChars [] pat
  | c :: cs => startsWithChars (c :: cs) pat || containsChars pat cs

/-- Whether pat occurs anywhere in s, on the underlying character lists. -/
def strContains (s pat : String) : Bool := containsChars pat.data s.data

/-- C3: for the CborDB backend the isolation claim fails.  CborDBTransaction
stores one shared MemoryDB in both snapshot fields, so a CRUD mutation
performed through the transaction also changes what the before snapshot
reads: seeding with the empty collection and then inserting one record
through the transaction moves the before snapshot read from the empty
collection to the inserted one. -/
theorem cbor_tx_mutation_changes_before_snapshot :
    ((cborTransactionNew (R := SRec) []).1.records_before =
      (cborTransactionNew (R := SRec) []).1.records_after) ∧
    (let pair := cborTransactionNew (R := SRec) []
     let h2 := cbor_try_initialize_file pair.2 pair.1 []
     let step := cborTxRunOp skey h2 pair.1 (DBOp.insertOne (1, "a"))
     step.2 = none ∧
     cborReadBefore (K := Nat) h2 pair.1 = .ok [] ∧
     cborReadBefore (K := Nat) step.1 pair.1 = .ok [(1, "a")]) :=
  ⟨rfl, rfl, rfl, rfl⟩

/-- C4: against the CborDB backend, rollback after a successful commit does not
revert the primary to the state recorded at seed time.  The before snapshot
shares the after snapshot's store, so try_rollback rewrites the primary with
the transaction's final records instead of the seeded ones. -/
theorem cbor_rollback_after_commit_keeps_committed_state :
    (let pair := cborTransactionNew (R := SRec) []
     let h2 := cbor_try_initialize_file pair.2 pair.1 [(1, "r0")]
     let step := cborTxRunOp skey h2 pair.1 (DBOp.replaceAll [(2, "r1")])
     let committed := cbor_try_commit skey step.1 pair.1 (some [(1, "r0")])
     let rolled := cbor_try_rollback (K := Nat) step.1 pair.1 committed.1
     step.2 = none ∧ committed.2 = none ∧ rolled.2 = none ∧
     cborReadBefore (K := Nat) h2 pair.1 = .ok [(1, "r0")] ∧
     rolled.1 = some [(2, "r1")] ∧ rolled.1 ≠ some [(1, "r0")]) := by
  refine ⟨rfl, rfl, rfl, rfl, rfl, ?_⟩
  decide

/-- C5 amended: when try_commit_with_path's write of the after snapshot fails,
the engine attempts try_rollback_with_path before surfacing an error.  When
the rollback succeeds, the primary again holds the before snapshot and the
returned error is a transaction-commit failure whose reason is the write
failure's display text.  When the rollback also fails, the returned error is a
transaction-rollback failure whose reason is the rollback failure's own
display text; the original commit failure's reason is not included in it. -/
theorem commit_failure_rolls_back_and_wraps {R : Type} (p : FilePrimary R)
    (tx : JsonDBTransaction R) (transaction_path database_path : String)
    (recsA : List R) (w : String)
    (hafter : tx.records_after = some recsA)
    (hfail : p.failWrite recsA = some w) :
    (∀ recsB : List R, tx.records_before = some recsB → p.failWrite recsB = none →
      try_commit_with_path p tx transaction_path database_path =
        ({ p with content := some recsB },
          some (.commitFailure database_path (errToString (.ioWrite database_path w))))) ∧
    (tx.records_before = none →
      try_commit_with_path p tx transaction_path database_path =
        (p, some (.rollbackFailure database_path
          (errToString (Err.notFound transaction_path))))) := by
  constructor
  · intro recsB hbefore hok
    simp [try_commit_with_path, jsonTxReadAfter, jsonTxReadBefore, get_all_with_path,
      hafter, hbefore, fpTryWriteStorage, hfail, hok, try_rollback_with_path]
  · intro hbefore
    simp [try_commit_with_path, jsonTxReadAfter, jsonTxReadBefore, get_all_with_path,
      hafter, hbefore, fpTryWriteStorage, hfail, try_rollback_with_path]

/-- Concrete primary used to evaluate the commit failure path: writing the
poisoned collection fails with reason W, every other write succeeds. -/
def demoPrimary : FilePrimary SRec :=
  { content := some [(1, "r0")],
    failWrite := fun l => if l = [(9, "p9")] then some "W" else none }

/-- Concrete seeded transaction whose after snapshot holds the poisoned
collection. -/
def demoTx : JsonDBTransaction SRec :=
  { records_before := some [(1, "r0")], records_after := some [(9, "p9")] }

/-- Closed instance of the C5 theorem: the failed write triggers a successful
rollback and the surfaced error is the commit failure wrapping the write
failure's text. -/
theorem commit_failure_rolls_back_and_wraps_witness :
    demoTx.records_after = some [(9, "p9")] ∧
    demoPrimary.failWrite [(9, "p9")] = some "W" ∧
    demoTx.records_before = some [(1, "r0")] ∧
    demoPrimary.failWrite [(1, "r0")] = none ∧
    try_commit_with_path demoPrimary demoTx "tx" "db" =
      ({ demoPrimary with content := some [(1, "r0")] },
        some (.commitFailure "db" (errToString (.ioWrite "db" "W")))) :=
  ⟨rfl, rfl, rfl, rfl,
    (commit_failure_rolls_back_and_wraps demoPrimary demoTx "tx" "db" [(9, "p9")] "W"
      rfl rfl).1 [(1, "r0")] rfl rfl⟩

/-- C5 counterexample: the commit write fails with reason BOOM and the rollback
also fails (empty before snapshot); the surfaced rollback failure's reason is
the rollback error's own text, and BOOM occurs nowhere in it — the original
commit failure's reason is not embedded as text. -/
theorem commit_double_failure_drops_commit_reason :
    (try_commit_with_path
        { content := some [(1, "r0")],
          failWrite := fun l => if l = [(9, "poison")] then some "BOOM" else none }
        { records_before := none, records_after := some [(9, "poison")] }
        "tx" "db").2 =
      some (.rollbackFailure "db" "Database file at [tx] not found.") ∧
    strContains "Database file at [tx] not found." "BOOM" = false :=
  ⟨rfl, by decide⟩

/-- C6 amended: a manual backup of path P (and the decode-failure backup, which
calls it with reason FAILED_PARSING) copies P's bytes byte-for-byte to P with
added extension timestamp-reason-".bak" — the Unix-seconds timestamp comes
first, then the reason tag — while P's own bytes stay untouched, and returns
that backup path.  (The legacy CBOR reader's inline automatic backup in
src/engine/cbordb.rs instead replaces P's extension and is not routed through
try_backup_storage.) -/
theorem backup_copies_bytes_to_timestamped_path (s : ByteStore) (path reason : String)
    (timestamp : Int) (bytes : List Nat) (decode_error : String)
    (hsrc : s path = some bytes) :
    (try_backup_storage s path reason timestamp =
      .ok (with_added_extension path (toString timestamp ++ "-" ++ reason ++ ".bak"),
        fun p =>
          if p = with_added_extension path (toString timestamp ++ "-" ++ reason ++ ".bak")
          then some bytes else s p)) ∧
    with_added_extension path (toString timestamp ++ "-" ++ reason ++ ".bak") ≠ path ∧
    ((fun p =>
        if p = with_added_extension path (toString timestamp ++ "-" ++ reason ++ ".bak")
        then some bytes else s p) path = some bytes) ∧
    backup_failed_parse s path timestamp decode_error =
      ((fun p =>
          if p = with_added_extension path (toString timestamp ++ "-" ++ "FAILED_PARSING" ++ ".bak")
          then some bytes else s p),
        .corrupt path ("Deserialization failed, caused by: [" ++ decode_error ++ "]")) := by
  have hne : with_added_extension path (toString timestamp ++ "-" ++ reason ++ ".bak") ≠ path := by
    intro heq
    have h1 := congrArg String.length heq
    simp only [with_added_extension, String.length_append] at h1
    have h2 : String.length "." = 1 := rfl
    have h3 : String.length "-" = 1 := rfl
    have h4 : String.length ".bak" = 4 := rfl
    rw [h2, h3, h4] at h1
    omega
  refine ⟨?_, hne, ?_, ?_⟩
  · simp [try_backup_storage, try_copy_file, hsrc]
  · by_cases h : path = with_added_extension path (toString timestamp ++ "-" ++ reason ++ ".bak")
    · exact absurd h.symm hne
    · simp [h, hsrc]
  · simp [backup_failed_parse, try_backup_storage, try_copy_file, hsrc]

/-- Closed instance of the C6 theorem at path P, timestamp 5, reason
FAILED_PARSING. -/
theorem backup_copies_bytes_to_timestamped_path_witness :
    ((fun p => if p = "P" then some [7, 8] else none) : ByteStore) "P" = some [7, 8] ∧
    (try_backup_storage (fun p => if p = "P" then some [7, 8] else none)
        "P" "FAILED_PARSING" 5 =
      .ok (with_added_extension "P" (toString (5 : Int) ++ "-" ++ "FAILED_PARSING" ++ ".bak"),
        fun p =>
          if p = with_added_extension "P" (toString (5 : Int) ++ "-" ++ "FAILED_PARSING" ++ ".bak")
          then some [7, 8] else (fun p => if p = "P" then some [7, 8] else none) p)) ∧
    with_added_extension "P" (toString (5 : Int) ++ "-" ++ "FAILED_PARSING" ++ ".bak") ≠ "P" :=
  ⟨rfl,
    (backup_copies_bytes_to_timestamped_path (fun p => if p = "P" then some [7, 8] else none)
      "P" "FAILED_PARSING" 5 [7, 8] "bad" rfl).1,
    (backup_copies_bytes_to_timestamped_path (fun p => if p = "P" then some [7, 8] else none)
      "P" "FAILED_PARSING" 5 [7, 8] "bad" rfl).2.1⟩

/-- C6 counterexample: with stored bytes at P and timestamp 5, the backup path
is "P.5-FAILED_PARSING.bak", not the claimed "P.FAILED_PARSING-5.bak": the
timestamp precedes the reason tag in the added extension. -/
theorem backup_name_not_reason_first :
    (try_backup_storage (fun p => if p = "P" then some [7] else none)
        "P" "FAILED_PARSING" 5).map (fun r => r.1) = .ok "P.5-FAILED_PARSING.bak" ∧
    "P.5-FAILED_PARSING.bak" ≠
      with_added_extension "P" ("FAILED_PARSING" ++ "-" ++ toString (5 : Int) ++ ".bak") :=
  ⟨rfl, by decide⟩

/-- C9: the arity-1 composite instance does not decompose into its single-kind
operation — its methods are todo!() and panic even where the single-kind
get_all succeeds — while the arity-2 instance does decompose in list order and
short-circuit: when the second kind's insert_all fails, the first kind's
partition keeps its already-persisted result and the second kind's partition
is untouched. -/
theorem composite_arity_one_panics_arity_two_short_circuits :
    op1_get_all (R := SRec) (K := Nat)
        (fun p => if p = "A" then some [] else if p = "B" then some [(1, "x")] else none) =
      .error (.panicked "not yet implemented") ∧
    get_all_with_path (K := Nat) "A"
        ((fun p => if p = "A" then some ([] : List SRec)
          else if p = "B" then some [(1, "x")] else none) "A") = .ok [] ∧
    (let step := op2_insert_all skey "A" "B" [(2, "y")] [(1, "z")]
        (fun p => if p = "A" then some [] else if p = "B" then some [(1, "x")] else none)
     step.2 = some (.opFailure "B" [1]) ∧
     step.1 "A" = some [(2, "y")] ∧
     step.1 "B" = some [(1, "x")]) :=
  ⟨rfl, rfl, rfl, rfl, rfl⟩

end Lupabase
